import Mathlib

/-!
# Verification of `atlas/datasets/sample.py`

A shallow embedding of the two manifest builders `prepare_sample_scene`
(variant A, per-frame pose files) and `prepare_test_scene` (variant B, a
single `pose.txt` table), together with theorems settling the frozen claims
about them.

Floating-point values that flow through the builders are modelled exactly:
a value is either a finite rational or one of the IEEE specials
(`+inf`, `-inf`, `nan`).  Conversion from text keeps the exact decimal value,
except that magnitudes at or beyond the binary32 / binary64 rounding
threshold become infinities, as `numpy.float32` / `numpy.loadtxt` would
produce.  File I/O is modelled by a record of the file contents a scene
directory can offer; writing `info.json` is modelled by the builder
returning the manifest value (`Except.ok`) — an error return means the
builder raised before reaching the final write, so no file is produced.
Progress printing is modelled by the list of printed lines returned next to
the result.
-/

/-- A Python/numpy floating-point value: a finite (exact) rational or one of
the non-finite specials. -/
inductive PyFloat where
  | fin (q : ℚ)
  | posInf
  | negInf
  | nan
deriving DecidableEq, Repr

/-- `numpy.isfinite`. -/
def PyFloat.isFinite : PyFloat → Bool
  | .fin _ => true
  | _ => false

/-- Negation, as applied to a parsed literal with a leading `-` sign. -/
def PyFloat.neg : PyFloat → PyFloat
  | .fin q => .fin (-q)
  | .posInf => .negInf
  | .negInf => .posInf
  | .nan => .nan

/-- The characters Python's `str.split()` (and `float`/`int` stripping)
treat as whitespace. -/
def isWsChar (c : Char) : Bool :=
  c = ' ' || c = '\t' || c = '\n' || c = '\r' || c = '\x0b' || c = '\x0c'

/-- Strip leading and trailing whitespace from a character list. -/
def stripWsChars (cs : List Char) : List Char :=
  ((cs.dropWhile isWsChar).reverse.dropWhile isWsChar).reverse

/-- Split a character list at every occurrence of `sep`, keeping empty
pieces — the semantics of Python's `str.split(sep)` with an explicit
one-character separator. -/
def splitOnCharList (sep : Char) : List Char → List (List Char)
  | [] => [[]]
  | c :: cs =>
    if c = sep then [] :: splitOnCharList sep cs
    else
      match splitOnCharList sep cs with
      | w :: ws => (c :: w) :: ws
      | [] => [[c]]

/-- Python `line.split(" ")`. -/
def pySplitSpace (s : String) : List String :=
  (splitOnCharList ' ' s.toList).map String.mk

/-- Split on runs of whitespace dropping empty pieces — Python's
`str.split()` with no argument. -/
def splitWsAux : List Char → List Char → List (List Char)
  | [], acc => if acc.isEmpty then [] else [acc.reverse]
  | c :: cs, acc =>
    if isWsChar c then
      if acc.isEmpty then splitWsAux cs [] else acc.reverse :: splitWsAux cs []
    else splitWsAux cs (c :: acc)

/-- Python `s.split()` (whitespace tokenization). -/
def pySplitWs (s : String) : List String :=
  (splitWsAux s.toList []).map String.mk

/-- Numeric value of a digit character. -/
def digitsToNat (cs : List Char) : Nat :=
  cs.foldl (fun a c => a * 10 + (c.toNat - 48)) 0

/-- Split a literal at the first `e`/`E`, returning the mantissa part and,
when an exponent marker is present, the exponent part. -/
def splitExpChar : List Char → List Char × Option (List Char)
  | [] => ([], none)
  | c :: cs =>
    if c = 'e' || c = 'E' then ([], some cs)
    else
      let (m, e) := splitExpChar cs
      (c :: m, e)

/-- Parse an unsigned decimal mantissa: `digits`, `digits.digits`,
`.digits` or `digits.` (at least one digit overall). -/
def parseUnsignedDec (cs : List Char) : Option ℚ :=
  let intp := cs.takeWhile Char.isDigit
  let rest := cs.drop intp.length
  match rest with
  | [] => if intp.isEmpty then none else some (digitsToNat intp : ℚ)
  | '.' :: frac =>
    if frac.all Char.isDigit && !(intp.isEmpty && frac.isEmpty) then
      some ((digitsToNat intp : ℚ) + (digitsToNat frac : ℚ) / (10 : ℚ) ^ frac.length)
    else none
  | _ => none

/-- Parse an optionally signed decimal integer (the exponent of a float
literal). -/
def parseSignedIntChars (cs : List Char) : Option ℤ :=
  match cs with
  | '+' :: ds =>
    if !ds.isEmpty && ds.all Char.isDigit then some (digitsToNat ds : ℤ) else none
  | '-' :: ds =>
    if !ds.isEmpty && ds.all Char.isDigit then some (-(digitsToNat ds : ℤ)) else none
  | ds =>
    if !ds.isEmpty && ds.all Char.isDigit then some (digitsToNat ds : ℤ) else none

/-- Parse an unsigned decimal literal with optional exponent. -/
def parseDecimalQ (cs : List Char) : Option ℚ :=
  let (m, eo) := splitExpChar cs
  match eo with
  | none => parseUnsignedDec m
  | some ecs =>
    match parseUnsignedDec m, parseSignedIntChars ecs with
    | some mv, some ev => some (mv * (10 : ℚ) ^ ev)
    | _, _ => none

/-- ASCII lowercase. -/
def lcChar (c : Char) : Char :=
  if 65 ≤ c.toNat && c.toNat ≤ 90 then Char.ofNat (c.toNat + 32) else c

/-- Parse the absolute part of a Python float literal: `inf`, `infinity`,
`nan` (case-insensitive) or a decimal literal. -/
def parseAbsFloat (cs : List Char) : Option PyFloat :=
  let l := cs.map lcChar
  if l = ['i', 'n', 'f'] || l = ['i', 'n', 'f', 'i', 'n', 'i', 't', 'y'] then
    some .posInf
  else if l = ['n', 'a', 'n'] then some .nan
  else (parseDecimalQ cs).map .fin

/-- Python `float(s)`: strip whitespace, optional sign, then specials or a
decimal literal, as an exact rational. -/
def pyParseFloat (s : String) : Option PyFloat :=
  match stripWsChars s.toList with
  | '+' :: rest => parseAbsFloat rest
  | '-' :: rest => (parseAbsFloat rest).map PyFloat.neg
  | rest => parseAbsFloat rest

/-- Smallest magnitude that rounds to infinity in binary32. -/
def f32MaxQ : ℚ := ((2 ^ 128 - 2 ^ 103 : ℕ) : ℚ)

/-- Smallest magnitude that rounds to infinity in binary64. -/
def f64MaxQ : ℚ := ((2 ^ 1024 - 2 ^ 970 : ℕ) : ℚ)

/-- Overflow behaviour of converting an exact value to `numpy.float32`
(finite values are kept exact otherwise). -/
def toF32 : PyFloat → PyFloat
  | .fin q => if f32MaxQ ≤ q then .posInf else if q ≤ -f32MaxQ then .negInf else .fin q
  | v => v

/-- Overflow behaviour of conversion to a 64-bit float (used by
`numpy.loadtxt`). -/
def toF64 : PyFloat → PyFloat
  | .fin q => if f64MaxQ ≤ q then .posInf else if q ≤ -f64MaxQ then .negInf else .fin q
  | v => v

/-- `os.path.join` of two components (POSIX semantics, as used here). -/
def pyJoin2 (a b : String) : String :=
  if (match b.toList with | '/' :: _ => true | _ => false) then b
  else if a = "" || (match a.toList.getLast? with | some '/' => true | _ => false) then
    a ++ b
  else a ++ "/" ++ b

/-- `os.path.join` over a component list. -/
def pyJoin : List String → String
  | [] => ""
  | p :: rest => rest.foldl pyJoin2 p

/-- Decimal digits of a natural number (fuel-indexed helper). -/
def natDigitsAux : Nat → Nat → List Char → List Char
  | 0, _, acc => acc
  | fuel + 1, n, acc =>
    if n < 10 then Char.ofNat (48 + n) :: acc
    else natDigitsAux fuel (n / 10) (Char.ofNat (48 + n % 10) :: acc)

/-- Decimal rendering of a natural number. -/
def natToStr (n : Nat) : String :=
  String.mk (natDigitsAux (n + 1) n [])

/-- Pad a character list on the left with zeros to width `w`. -/
def leftPad0 (w : Nat) (cs : List Char) : List Char :=
  List.replicate (w - cs.length) '0' ++ cs

/-- Python `'%08d' % n`: zero-pad to total width 8, sign included. -/
def pad8 (n : ℤ) : String :=
  if n < 0 then String.mk ('-' :: leftPad0 7 (natDigitsAux ((-n).toNat + 1) (-n).toNat []))
  else String.mk (leftPad0 8 (natDigitsAux (n.toNat + 1) n.toNat []))

/-- Root part of `os.path.splitext(name)` for a bare file name: the text
before the last dot, unless every character before that dot is itself a
dot. -/
def splitLastDot : List Char → Option (List Char × List Char)
  | [] => none
  | c :: cs =>
    match splitLastDot cs with
    | some (p, e) => some (c :: p, e)
    | none => if c = '.' then some ([], c :: cs) else none

/-- `os.path.splitext(s)[0]` for names without path separators. -/
def pySplitextRoot (s : String) : String :=
  match splitLastDot s.toList with
  | none => s
  | some (p, _) => if p.all (· = '.') then s else String.mk p

/-- Python `int(s)` on a string: strip whitespace, optional sign, decimal
digits. -/
def pyParseInt (s : String) : Option ℤ :=
  match stripWsChars s.toList with
  | '+' :: ds =>
    if !ds.isEmpty && ds.all Char.isDigit then some (digitsToNat ds : ℤ) else none
  | '-' :: ds =>
    if !ds.isEmpty && ds.all Char.isDigit then some (-(digitsToNat ds : ℤ)) else none
  | ds =>
    if !ds.isEmpty && ds.all Char.isDigit then some (digitsToNat ds : ℤ) else none

/-- Errors a builder can raise: a missing file/directory (`OSError`) or a
value that does not parse (`ValueError`). -/
inductive PyErr where
  | missingInput (path : String)
  | parseError (what : String)
deriving DecidableEq, Repr

/-- One entry of the manifest's `frames` array. -/
structure Frame where
  file_name_image : String
  intrinsics : List (List PyFloat)
  pose : List (List PyFloat)
deriving DecidableEq, Repr

/-- The content of `info.json`. -/
structure Manifest where
  dataset : String
  path : String
  scene : String
  frames : List Frame
deriving DecidableEq, Repr

/-- The files a scene directory offers to the two builders.
`intrinsicsTxt` is the content of `scene/intrinsics.txt`, `colorNames` the
listing of `scene/color/` (absent when the directory is missing),
`poseFiles` maps a file name under `scene/pose/` to its content, and
`poseTxt` is the content of `scene/pose.txt`. -/
structure SceneFiles where
  intrinsicsTxt : Option String
  colorNames : Option (List String)
  poseFiles : String → Option String
  poseTxt : Option String

/-- `Option`-valued map over a list, with explicit equations. -/
def optMapM (f : α → Option β) : List α → Option (List β)
  | [] => some []
  | a :: l =>
    match f a, optMapM f l with
    | some b, some bs => some (b :: bs)
    | _, _ => none

/-- `Except`-valued map over a list, failing on the first error. -/
def exMapM (f : α → Except PyErr β) : List α → Except PyErr (List β)
  | [] => .ok []
  | a :: l =>
    match f a with
    | .error e => .error e
    | .ok b =>
      match exMapM f l with
      | .error e => .error e
      | .ok bs => .ok (b :: bs)

/-- Convert a row of tokens to 64-bit float values (the conversion
`numpy.loadtxt` applies). -/
def convertRow64 (ws : List String) : Except PyErr (List PyFloat) :=
  exMapM (fun w =>
    match pyParseFloat w with
    | some v => .ok (toF64 v)
    | none => .error (.parseError w)) ws

/-- The data lines `numpy.loadtxt` reads from a text: split into lines,
drop `#` comments, keep lines that still hold at least one token. -/
def loadtxtLines (content : String) : List String :=
  (((splitOnCharList '\n' content.toList).map
      (fun l => l.takeWhile (· ≠ '#'))).filter
      (fun l => !(splitWsAux l []).isEmpty)).map String.mk

/-- `numpy.loadtxt` on an optional file content: missing file raises
`OSError`; each data line is whitespace-tokenized and converted to floats;
ragged rows raise. -/
def loadtxt (name : String) (content? : Option String) :
    Except PyErr (List (List PyFloat)) :=
  match content? with
  | none => .error (.missingInput name)
  | some content =>
    match exMapM (fun l => convertRow64 (pySplitWs l)) (loadtxtLines content) with
    | .error e => .error e
    | .ok rows =>
      match rows with
      | [] => .ok []
      | r :: rs =>
        if rs.all (fun row => row.length == r.length) then .ok (r :: rs)
        else .error (.parseError name)

/-- `np.all(np.isfinite(m))` on a matrix. -/
def finiteMat (m : List (List PyFloat)) : Bool :=
  m.all (fun r => r.all PyFloat.isFinite)

/-- Insert into a sorted list of integers. -/
def insertSorted (x : ℤ) : List ℤ → List ℤ
  | [] => [x]
  | y :: ys => if x ≤ y then x :: y :: ys else y :: insertSorted x ys

/-- Python `sorted` on a list of integers (insertion sort). -/
def sortInts : List ℤ → List ℤ
  | [] => []
  | x :: xs => insertSorted x (sortInts xs)

/-- `'preparing %s' % scene`. -/
def sceneMsg (scene : String) : String := "preparing " ++ scene

/-- `'preparing %s frame %d/%d' % (scene, i, n)`. -/
def frameMsg (scene : String) (i n : Nat) : String :=
  "preparing " ++ scene ++ " frame " ++ natToStr i ++ "/" ++ natToStr n

/-- The pose file name `'%08d.txt' % frame_id`. -/
def poseNameA (id : ℤ) : String := pad8 id ++ ".txt"

/-- The image path `os.path.join(path, scene, 'color', '%08d.jpg' % id)`
stored in a variant-A frame record. -/
def imgPathA (path scene : String) (id : ℤ) : String :=
  pyJoin [path, scene, "color", pad8 id ++ ".jpg"]

/-- The identifier variant A derives from a color file name:
`int(os.path.splitext(name)[0])`. -/
def colorId (nm : String) : Option ℤ := pyParseInt (pySplitextRoot nm)

/-- The frame loop of `prepare_sample_scene`, returning the printed
progress lines and either the collected frames or the first error. -/
def loopA (fs : SceneFiles) (scene path : String) (intr : List (List PyFloat))
    (verbose : ℤ) (n : Nat) :
    List ℤ → Nat → List String × Except PyErr (List Frame)
  | [], _ => ([], .ok [])
  | id :: rest, i =>
    let pr := if verbose > 1 ∧ i % 25 = 0 then [frameMsg scene i n] else []
    match loadtxt (pyJoin [path, scene, "pose", poseNameA id])
        (fs.poseFiles (poseNameA id)) with
    | .error e => (pr, .error e)
    | .ok pose =>
      let r := loopA fs scene path intr verbose n rest (i + 1)
      match r.2 with
      | .error e => (pr ++ r.1, .error e)
      | .ok frames =>
        if finiteMat pose then
          (pr ++ r.1, .ok ({ file_name_image := imgPathA path scene id,
                             intrinsics := intr, pose := pose } :: frames))
        else (pr ++ r.1, .ok frames)

/-- Variant A, `prepare_sample_scene`: the returned `Except` is the content
written to `output_root/scene/info.json` (`ok`) or the propagated error
(`error`, in which case the final write is never reached); the second
component lists the printed progress lines. -/
def prepare_sample_scene (fs : SceneFiles) (scene path : String) (verbose : ℤ) :
    Except PyErr Manifest × List String :=
  let pr0 := if verbose > 0 then [sceneMsg scene] else []
  match loadtxt (pyJoin [path, scene, "intrinsics.txt"]) fs.intrinsicsTxt with
  | .error e => (.error e, pr0)
  | .ok intr =>
    match fs.colorNames with
    | none => (.error (.missingInput (pyJoin [path, scene, "color"])), pr0)
    | some names =>
      match optMapM colorId names with
      | none => (.error (.parseError "invalid literal for int"), pr0)
      | some ids =>
        let sids := sortInts ids
        let r := loopA fs scene path intr verbose sids.length sids 0
        match r.2 with
        | .error e => (.error e, pr0 ++ r.1)
        | .ok frames =>
          (.ok { dataset := "sample", path := path, scene := scene,
                 frames := frames }, pr0 ++ r.1)

/-- Python `f.readlines()` followed by `line.strip('\n')` on each element:
the lines of the content without their newline terminators, with no
spurious empty line after a final newline. -/
def pyReadlines (c : String) : List String :=
  match c.toList with
  | [] => []
  | cs =>
    let parts := splitOnCharList '\n' cs
    (if cs.getLast? = some '\n' then parts.dropLast else parts).map String.mk

/-- Convert a row of tokens with `np.array(_, np.float32)`. -/
def convertRow32 (ws : List String) : Except PyErr (List PyFloat) :=
  exMapM (fun w =>
    match pyParseFloat w with
    | some v => .ok (toF32 v)
    | none => .error (.parseError w)) ws

/-- `np.array(xs).reshape(3, 3)`: succeeds exactly on nine values. -/
def npReshape3x3 (xs : List PyFloat) : Except PyErr (List (List PyFloat)) :=
  if xs.length = 9 then .ok [xs.take 3, (xs.drop 3).take 3, xs.drop 6]
  else .error (.parseError "cannot reshape")

/-- `np.array(xs).reshape(3, 1)`: succeeds exactly on three values (kept as
a flat column). -/
def npReshape3x1 (xs : List PyFloat) : Except PyErr (List PyFloat) :=
  if xs.length = 3 then .ok xs else .error (.parseError "cannot reshape")

/-- `P = concat((concat((R, t), axis=1), [[0,0,0,1]]), axis=0)`. -/
def mkPose (R : List (List PyFloat)) (t : List PyFloat) : List (List PyFloat) :=
  (List.zipWith (fun r ti => r ++ [ti]) R t) ++
    [[.fin 0, .fin 0, .fin 0, .fin 1]]

/-- Python list slice `l[a:b]` (for `a ≤ b` on non-negative indices). -/
def pySlice (l : List α) (a b : Nat) : List α := (l.drop a).take (b - a)

/-- What one `pose.txt` line yields: the frame token (`words[0]`), the
intrinsics from fields 1–9 and the assembled 4×4 pose from fields 10–21. -/
structure PoseEntry where
  token : String
  intr : List (List PyFloat)
  pose : List (List PyFloat)
deriving DecidableEq, Repr

/-- Parsing one line of `pose.txt` in `prepare_test_scene`: split on single
spaces, convert and reshape the three numeric slices, assemble the pose. -/
def parseLineB (line : String) : Except PyErr PoseEntry :=
  let words := pySplitSpace line
  match convertRow32 (pySlice words 1 10) with
  | .error e => .error e
  | .ok kv =>
    match npReshape3x3 kv with
    | .error e => .error e
    | .ok K =>
      match convertRow32 (pySlice words 10 19) with
      | .error e => .error e
      | .ok rv =>
        match npReshape3x3 rv with
        | .error e => .error e
        | .ok R =>
          match convertRow32 (pySlice words 19 22) with
          | .error e => .error e
          | .ok tv =>
            match npReshape3x1 tv with
            | .error e => .error e
            | .ok t =>
              .ok { token := words.headD "", intr := K,
                    pose := mkPose R t }

/-- The state the `pose.txt` reading loop accumulates: the token-to-pose
bindings in line order (`poses`, later bindings shadowing earlier ones),
the tokens in line order (`frame_ids`) and the lastly assigned `intrinsics`
variable. -/
structure ParseStateB where
  entries : List (String × List (List PyFloat))
  frame_ids : List String
  lastIntr : Option (List (List PyFloat))
deriving DecidableEq, Repr

/-- The `pose.txt` reading loop of `prepare_test_scene` over the stripped
lines. -/
def parseAllB : List String → Except PyErr ParseStateB
  | [] => .ok ⟨[], [], none⟩
  | l :: ls =>
    match parseLineB l with
    | .error e => .error e
    | .ok ent =>
      match parseAllB ls with
      | .error e => .error e
      | .ok st =>
        .ok ⟨(ent.token, ent.pose) :: st.entries,
             ent.token :: st.frame_ids,
             some (st.lastIntr.getD ent.intr)⟩

/-- Lookup in the `poses` dict: the binding of the *last* line carrying the
token wins, since later assignments overwrite earlier ones. -/
def lookupLast (entries : List (String × List (List PyFloat))) (tok : String) :
    Option (List (List PyFloat)) :=
  match entries with
  | [] => none
  | (t, p) :: rest =>
    match lookupLast rest tok with
    | some q => some q
    | none => if t = tok then some p else none

/-- The image path `os.path.join(path, scene, 'color', frame_id)` stored in
a variant-B frame record. -/
def imgPathB (path scene tok : String) : String :=
  pyJoin [path, scene, "color", tok]

/-- The frame loop of `prepare_test_scene`: for each token in line order,
look up its pose, skip non-finite poses, otherwise emit a frame carrying
the lastly parsed intrinsics.  (The `none` fallbacks are unreachable: every
token in `frame_ids` was bound in `entries`, and a non-empty `frame_ids`
forces `intr?` to be assigned.) -/
def loopB (scene path : String)
    (entries : List (String × List (List PyFloat)))
    (intr? : Option (List (List PyFloat))) (verbose : ℤ) (n : Nat) :
    List String → Nat → List String × List Frame
  | [], _ => ([], [])
  | tok :: rest, i =>
    let pr := if verbose > 1 ∧ i % 25 = 0 then [frameMsg scene i n] else []
    let r := loopB scene path entries intr? verbose n rest (i + 1)
    match lookupLast entries tok with
    | none => (pr ++ r.1, r.2)
    | some pose =>
      if finiteMat pose then
        match intr? with
        | some K =>
          (pr ++ r.1, { file_name_image := imgPathB path scene tok,
                        intrinsics := K, pose := pose } :: r.2)
        | none => (pr ++ r.1, r.2)
      else (pr ++ r.1, r.2)

/-- Variant B, `prepare_test_scene`: read and parse `scene/pose.txt` line by
line, then emit one frame per recorded token in line order.  The returned
`Except` is the content written to `output_root/scene/info.json` (`ok`) or
the propagated error (`error`, the final write never being reached); the
second component lists the printed progress lines. -/
def prepare_test_scene (fs : SceneFiles) (scene path : String) (verbose : ℤ) :
    Except PyErr Manifest × List String :=
  let pr0 := if verbose > 0 then [sceneMsg scene] else []
  match fs.poseTxt with
  | none => (.error (.missingInput (pyJoin [path, scene, "pose.txt"])), pr0)
  | some content =>
    match parseAllB (pyReadlines content) with
    | .error e => (.error e, pr0)
    | .ok st =>
      let r := loopB scene path st.entries st.lastIntr verbose
        st.frame_ids.length st.frame_ids 0
      (.ok { dataset := "sample", path := path, scene := scene,
             frames := r.2 }, pr0 ++ r.1)

deriving instance DecidableEq for Except

theorem exMapM_ok_length {α β : Type} {f : α → Except PyErr β} :
    ∀ {l : List α} {bs : List β}, exMapM f l = .ok bs → bs.length = l.length := by
  intro l
  induction l with
  | nil =>
    intro bs h
    simp only [exMapM, Except.ok.injEq] at h
    simp [← h]
  | cons a t ih =>
    intro bs h
    simp only [exMapM] at h
    cases hfa : f a with
    | error e => rw [hfa] at h; cases h
    | ok b =>
      rw [hfa] at h
      cases ht : exMapM f t with
      | error e => rw [ht] at h; cases h
      | ok bs' =>
        rw [ht] at h
        simp only [Except.ok.injEq] at h
        subst h
        simp [ih ht]

theorem exMapM_error_of_mem {α β : Type} {f : α → Except PyErr β} {a : α}
    {l : List α} (hmem : a ∈ l) (he : ∃ e, f a = .error e) :
    ∃ e, exMapM f l = .error e := by
  induction l with
  | nil => cases hmem
  | cons b t ih =>
    rcases he with ⟨e, he⟩
    rcases List.mem_cons.mp hmem with rfl | hmem'
    · exact ⟨e, by simp [exMapM, he]⟩
    · simp only [exMapM]
      cases hfb : f b with
      | error e' => exact ⟨e', rfl⟩
      | ok v =>
        rcases ih hmem' with ⟨e', he'⟩
        rw [he']
        exact ⟨e', rfl⟩

theorem optMapM_eq_none_of_mem {α β : Type} {f : α → Option β} {a : α}
    {l : List α} (hmem : a ∈ l) (hf : f a = none) :
    optMapM f l = none := by
  induction l with
  | nil => cases hmem
  | cons b t ih =>
    rcases List.mem_cons.mp hmem with rfl | hmem'
    · simp [optMapM, hf]
    · simp only [optMapM, ih hmem']
      cases f b <;> rfl

theorem filterMap_map_sublist {α β γ : Type} {f : α → Option β}
    {g : β → γ} {h : α → γ} (hfg : ∀ a b, f a = some b → g b = h a) :
    ∀ l : List α, List.Sublist ((l.filterMap f).map g) (l.map h)
  | [] => by simp
  | a :: t => by
    cases hfa : f a with
    | none =>
      simp only [List.filterMap_cons, hfa, List.map_cons]
      exact (filterMap_map_sublist hfg t).cons (h a)
    | some b =>
      simp only [List.filterMap_cons, hfa, List.map_cons, hfg a b hfa]
      exact (filterMap_map_sublist hfg t).cons₂ (h a)

theorem filterMap_eq_map_of_forall {α β : Type} {f : α → Option β}
    {g : α → β} :
    ∀ {l : List α}, (∀ a ∈ l, f a = some (g a)) → l.filterMap f = l.map g := by
  intro l
  induction l with
  | nil => intro _; rfl
  | cons a t ih =>
    intro hall
    simp only [List.filterMap_cons, hall a (by simp), List.map_cons]
    rw [ih (fun x hx => hall x (by simp [hx]))]

theorem mem_insertSorted {x y : ℤ} :
    ∀ {l : List ℤ}, y ∈ insertSorted x l ↔ y = x ∨ y ∈ l := by
  intro l
  induction l with
  | nil => simp [insertSorted]
  | cons a t ih =>
    by_cases hxa : x ≤ a
    · simp [insertSorted, hxa]
    · simp only [insertSorted, if_neg hxa, List.mem_cons, ih]
      tauto

theorem sorted_insertSorted {x : ℤ} :
    ∀ {l : List ℤ}, l.Sorted (· ≤ ·) → (insertSorted x l).Sorted (· ≤ ·) := by
  intro l
  induction l with
  | nil => intro _; simp [insertSorted]
  | cons a t ih =>
    intro hs
    rw [List.sorted_cons] at hs
    by_cases hxa : x ≤ a
    · rw [insertSorted, if_pos hxa, List.sorted_cons]
      refine ⟨fun b hb => ?_, List.sorted_cons.mpr hs⟩
      rcases List.mem_cons.mp hb with rfl | hb'
      · exact hxa
      · exact le_trans hxa (hs.1 b hb')
    · rw [insertSorted, if_neg hxa, List.sorted_cons]
      refine ⟨fun b hb => ?_, ih hs.2⟩
      rcases mem_insertSorted.mp hb with rfl | hb'
      · exact le_of_not_le hxa
      · exact hs.1 b hb'

theorem sorted_sortInts : ∀ l : List ℤ, (sortInts l).Sorted (· ≤ ·)
  | [] => by simp [sortInts]
  | x :: t => sorted_insertSorted (sorted_sortInts t)

theorem mem_sortInts {y : ℤ} : ∀ {l : List ℤ}, y ∈ sortInts l ↔ y ∈ l := by
  intro l
  induction l with
  | nil => simp [sortInts]
  | cons a t ih => simp [sortInts, mem_insertSorted, ih]

/-- What a single identifier contributes to the variant-A frame list: `none`
when its pose is non-finite (the skip), otherwise the frame record.  (An
error while loading would abort the whole scene, so an `ok` run contributes
through this function only.) -/
def frameOfIdA (fs : SceneFiles) (scene path : String)
    (intr : List (List PyFloat)) (id : ℤ) : Option Frame :=
  match loadtxt (pyJoin [path, scene, "pose", poseNameA id])
      (fs.poseFiles (poseNameA id)) with
  | .error _ => none
  | .ok pose =>
    if finiteMat pose then
      some { file_name_image := imgPathA path scene id,
             intrinsics := intr, pose := pose }
    else none

theorem loopA_snd_verbose {fs : SceneFiles} {scene path : String}
    {intr : List (List PyFloat)} (v v' : ℤ) (n n' : Nat) :
    ∀ (l : List ℤ) (i i' : Nat),
      (loopA fs scene path intr v n l i).2 = (loopA fs scene path intr v' n' l i').2 := by
  intro l
  induction l with
  | nil => intro i i'; rfl
  | cons id rest ih =>
    intro i i'
    simp only [loopA]
    cases hld : loadtxt (pyJoin [path, scene, "pose", poseNameA id])
        (fs.poseFiles (poseNameA id)) with
    | error e => rfl
    | ok pose =>
      simp only []
      rw [ih (i + 1) (i' + 1)]
      cases (loopA fs scene path intr v' n' rest (i' + 1)).2 with
      | error e => rfl
      | ok frames =>
        by_cases hf : finiteMat pose = true <;> simp [hf]

theorem loopA_ok_frames {fs : SceneFiles} {scene path : String}
    {intr : List (List PyFloat)} {v : ℤ} {n : Nat} :
    ∀ {l : List ℤ} {i : Nat} {frames : List Frame},
      (loopA fs scene path intr v n l i).2 = .ok frames →
      frames = l.filterMap (frameOfIdA fs scene path intr) := by
  intro l
  induction l with
  | nil =>
    intro i frames h
    simp only [loopA, Except.ok.injEq] at h
    simp [← h]
  | cons id rest ih =>
    intro i frames h
    simp only [loopA] at h
    cases hld : loadtxt (pyJoin [path, scene, "pose", poseNameA id])
        (fs.poseFiles (poseNameA id)) with
    | error e => simp [hld] at h
    | ok pose =>
      simp only [hld] at h
      cases hrec : (loopA fs scene path intr v n rest (i + 1)).2 with
      | error e => simp [hrec] at h
      | ok frames' =>
        simp only [hrec] at h
        by_cases hf : finiteMat pose = true
        · simp only [if_pos hf, Except.ok.injEq] at h
          subst h
          simp [List.filterMap_cons, frameOfIdA, hld, hf, ih hrec]
        · simp only [if_neg hf, Except.ok.injEq] at h
          subst h
          simp only [List.filterMap_cons, frameOfIdA, hld,
            Bool.not_eq_true] at hf ⊢
          rw [hf]
          simp [ih hrec]

theorem loopA_error_of_missing {fs : SceneFiles} {scene path : String}
    {intr : List (List PyFloat)} {v : ℤ} {n : Nat} {id : ℤ} :
    ∀ {l : List ℤ} (i : Nat), id ∈ l → fs.poseFiles (poseNameA id) = none →
      ∃ e, (loopA fs scene path intr v n l i).2 = .error e := by
  intro l
  induction l with
  | nil => intro i h; cases h
  | cons b rest ih =>
    intro i hmem hnone
    rcases List.mem_cons.mp hmem with rfl | hmem'
    · refine ⟨.missingInput (pyJoin [path, scene, "pose", poseNameA id]), ?_⟩
      simp [loopA, hnone, loadtxt]
    · simp only [loopA]
      cases hld : loadtxt (pyJoin [path, scene, "pose", poseNameA b])
          (fs.poseFiles (poseNameA b)) with
      | error e => exact ⟨e, rfl⟩
      | ok pose =>
        rcases ih (i + 1) hmem' hnone with ⟨e, he⟩
        rw [he]
        exact ⟨e, rfl⟩

theorem loopA_prints_low {fs : SceneFiles} {scene path : String}
    {intr : List (List PyFloat)} {v : ℤ} {n : Nat} (hv : v ≤ 1) :
    ∀ (l : List ℤ) (i : Nat), (loopA fs scene path intr v n l i).1 = [] := by
  intro l
  induction l with
  | nil => intro i; rfl
  | cons id rest ih =>
    intro i
    have hnot : ¬(v > 1 ∧ i % 25 = 0) := by
      rintro ⟨h1, _⟩; omega
    simp only [loopA, if_neg hnot]
    cases loadtxt (pyJoin [path, scene, "pose", poseNameA id])
        (fs.poseFiles (poseNameA id)) with
    | error e => rfl
    | ok pose =>
      simp only []
      cases (loopA fs scene path intr v n rest (i + 1)).2 with
      | error e => simp [ih]
      | ok frames =>
        by_cases hf : finiteMat pose = true <;> simp [hf, ih]

theorem prepareA_ok_inv {fs : SceneFiles} {scene path : String} {v : ℤ}
    {m : Manifest} {pr : List String}
    (h : prepare_sample_scene fs scene path v = (.ok m, pr)) :
    ∃ intr names ids frames,
      loadtxt (pyJoin [path, scene, "intrinsics.txt"]) fs.intrinsicsTxt = .ok intr ∧
      fs.colorNames = some names ∧
      optMapM colorId names = some ids ∧
      (loopA fs scene path intr v (sortInts ids).length (sortInts ids) 0).2 =
        .ok frames ∧
      m = { dataset := "sample", path := path, scene := scene, frames := frames } := by
  simp only [prepare_sample_scene] at h
  cases hld : loadtxt (pyJoin [path, scene, "intrinsics.txt"]) fs.intrinsicsTxt with
  | error e => simp [hld] at h
  | ok intr =>
    simp only [hld] at h
    cases hcn : fs.colorNames with
    | none => simp [hcn] at h
    | some names =>
      simp only [hcn] at h
      cases hids : optMapM colorId names with
      | none => simp [hids] at h
      | some ids =>
        simp only [hids] at h
        cases hlp : (loopA fs scene path intr v (sortInts ids).length
            (sortInts ids) 0).2 with
        | error e => simp [hlp] at h
        | ok frames =>
          simp only [hlp, Prod.mk.injEq, Except.ok.injEq] at h
          exact ⟨intr, names, ids, frames, rfl, rfl, hids, hlp, h.1.symm⟩

/-- What a single recorded token contributes to the variant-B frame list:
its looked-up (last-bound) pose when finite, paired with the lastly parsed
intrinsics; `none` on a non-finite pose (the skip). -/
def frameOfTokB (path scene : String)
    (entries : List (String × List (List PyFloat)))
    (intr? : Option (List (List PyFloat))) (tok : String) : Option Frame :=
  match lookupLast entries tok with
  | none => none
  | some pose =>
    if finiteMat pose then
      match intr? with
      | some K => some { file_name_image := imgPathB path scene tok,
                         intrinsics := K, pose := pose }
      | none => none
    else none

theorem loopB_snd_char {scene path : String}
    {entries : List (String × List (List PyFloat))}
    {intr? : Option (List (List PyFloat))} {v : ℤ} {n : Nat} :
    ∀ (toks : List String) (i : Nat),
      (loopB scene path entries intr? v n toks i).2 =
        toks.filterMap (frameOfTokB path scene entries intr?) := by
  intro toks
  induction toks with
  | nil => intro i; rfl
  | cons tok rest ih =>
    intro i
    simp only [loopB, List.filterMap_cons]
    cases hlk : lookupLast entries tok with
    | none => simp [frameOfTokB, hlk, ih]
    | some pose =>
      by_cases hf : finiteMat pose = true
      · cases intr? with
        | none => simp [frameOfTokB, hlk, hf, ih]
        | some K => simp [frameOfTokB, hlk, hf, ih]
      · simp [frameOfTokB, hlk, hf, ih]

theorem loopB_prints_low {scene path : String}
    {entries : List (String × List (List PyFloat))}
    {intr? : Option (List (List PyFloat))} {v : ℤ} {n : Nat} (hv : v ≤ 1) :
    ∀ (toks : List String) (i : Nat),
      (loopB scene path entries intr? v n toks i).1 = [] := by
  intro toks
  induction toks with
  | nil => intro i; rfl
  | cons tok rest ih =>
    intro i
    have hnot : ¬(v > 1 ∧ i % 25 = 0) := by
      rintro ⟨h1, _⟩; omega
    simp only [loopB, if_neg hnot]
    cases hlk : lookupLast entries tok with
    | none => simp [ih]
    | some pose =>
      by_cases hf : finiteMat pose = true
      · cases intr? with
        | none => simp [hf, ih]
        | some K => simp [hf, ih]
      · simp [hf, ih]

theorem lookupLast_mem {tok : String} {P : List (List PyFloat)} :
    ∀ {entries : List (String × List (List PyFloat))},
      lookupLast entries tok = some P → (tok, P) ∈ entries := by
  intro entries
  induction entries with
  | nil => intro h; cases h
  | cons e rest ih =>
    intro h
    obtain ⟨t, p⟩ := e
    simp only [lookupLast] at h
    cases hr : lookupLast rest tok with
    | some q =>
      rw [hr] at h
      simp only [Option.some.injEq] at h
      subst h
      exact List.mem_cons_of_mem _ (ih hr)
    | none =>
      rw [hr] at h
      by_cases ht : t = tok
      · rw [if_pos ht] at h
        simp only [Option.some.injEq] at h
        subst h
        subst ht
        exact List.mem_cons_self _ _
      · rw [if_neg ht] at h
        cases h

theorem parseAllB_lookup_some {tok : String} :
    ∀ {lines : List String} {st : ParseStateB},
      parseAllB lines = .ok st → tok ∈ st.frame_ids →
      ∃ P, lookupLast st.entries tok = some P := by
  intro lines
  induction lines with
  | nil =>
    intro st h hmem
    simp only [parseAllB, Except.ok.injEq] at h
    subst h
    cases hmem
  | cons l ls ih =>
    intro st h hmem
    simp only [parseAllB] at h
    cases hl : parseLineB l with
    | error e => simp [hl] at h
    | ok ent =>
      simp only [hl] at h
      cases hr : parseAllB ls with
      | error e => simp [hr] at h
      | ok st' =>
        simp only [hr, Except.ok.injEq] at h
        subst h
        simp only [List.mem_cons] at hmem
        rcases hmem with rfl | hmem'
        · cases hlk : lookupLast st'.entries ent.token with
          | some q => exact ⟨q, by simp [lookupLast, hlk]⟩
          | none => exact ⟨ent.pose, by simp [lookupLast, hlk]⟩
        · rcases ih hr hmem' with ⟨P, hP⟩
          exact ⟨P, by simp [lookupLast, hP]⟩

theorem parseAllB_lastIntr :
    ∀ {lines : List String} {st : ParseStateB},
      parseAllB lines = .ok st → lines ≠ [] →
      ∃ L ent, lines.getLast? = some L ∧ parseLineB L = .ok ent ∧
        st.lastIntr = some ent.intr := by
  intro lines
  induction lines with
  | nil => intro st _ hne; exact absurd rfl hne
  | cons l ls ih =>
    intro st h _
    simp only [parseAllB] at h
    cases hl : parseLineB l with
    | error e => simp [hl] at h
    | ok ent =>
      simp only [hl] at h
      cases hr : parseAllB ls with
      | error e => simp [hr] at h
      | ok st' =>
        simp only [hr, Except.ok.injEq] at h
        subst h
        cases hls : ls with
        | nil =>
          subst hls
          simp only [parseAllB, Except.ok.injEq] at hr
          subst hr
          exact ⟨l, ent, rfl, hl, rfl⟩
        | cons l2 ls2 =>
          rcases ih hr (by simp [hls]) with ⟨L, ent', hL, hent', hintr⟩
          subst hls
          refine ⟨L, ent', ?_, hent', ?_⟩
          · rw [List.getLast?_cons_cons]
            exact hL
          · simp [hintr]

theorem parseAllB_lastIntr_none :
    ∀ {lines : List String} {st : ParseStateB},
      parseAllB lines = .ok st → st.lastIntr = none → st.frame_ids = [] := by
  intro lines
  induction lines with
  | nil =>
    intro st h _
    simp only [parseAllB, Except.ok.injEq] at h
    subst h
    rfl
  | cons l ls _ =>
    intro st h hnone
    simp only [parseAllB] at h
    cases hl : parseLineB l with
    | error e => simp [hl] at h
    | ok ent =>
      simp only [hl] at h
      cases hr : parseAllB ls with
      | error e => simp [hr] at h
      | ok st' =>
        simp only [hr, Except.ok.injEq] at h
        subst h
        simp at hnone

theorem parseAllB_error_of_mem {line : String} :
    ∀ {lines : List String}, line ∈ lines → (∃ e, parseLineB line = .error e) →
      ∃ e, parseAllB lines = .error e := by
  intro lines
  induction lines with
  | nil => intro h; cases h
  | cons l ls ih =>
    intro hmem he
    rcases List.mem_cons.mp hmem with rfl | hmem'
    · rcases he with ⟨e, he⟩
      exact ⟨e, by simp [parseAllB, he]⟩
    · simp only [parseAllB]
      cases hl : parseLineB l with
      | error e => exact ⟨e, rfl⟩
      | ok ent =>
        rcases ih hmem' he with ⟨e, hpe⟩
        rw [hpe]
        exact ⟨e, rfl⟩

theorem prepareB_ok_inv {fs : SceneFiles} {scene path : String} {v : ℤ}
    {m : Manifest} {pr : List String}
    (h : prepare_test_scene fs scene path v = (.ok m, pr)) :
    ∃ content st, fs.poseTxt = some content ∧
      parseAllB (pyReadlines content) = .ok st ∧
      m = { dataset := "sample", path := path, scene := scene,
            frames := (loopB scene path st.entries st.lastIntr v
              st.frame_ids.length st.frame_ids 0).2 } := by
  simp only [prepare_test_scene] at h
  cases hc : fs.poseTxt with
  | none => simp [hc] at h
  | some content =>
    simp only [hc] at h
    cases hp : parseAllB (pyReadlines content) with
    | error e => simp [hp] at h
    | ok st =>
      simp only [hp, Prod.mk.injEq, Except.ok.injEq] at h
      exact ⟨content, st, rfl, hp, h.1.symm⟩

theorem frameOfIdA_some {fs : SceneFiles} {scene path : String}
    {intr : List (List PyFloat)} {id : ℤ} {f : Frame}
    (h : frameOfIdA fs scene path intr id = some f) :
    f.intrinsics = intr ∧ f.file_name_image = imgPathA path scene id ∧
      finiteMat f.pose = true ∧
      loadtxt (pyJoin [path, scene, "pose", poseNameA id])
        (fs.poseFiles (poseNameA id)) = .ok f.pose := by
  unfold frameOfIdA at h
  cases hld : loadtxt (pyJoin [path, scene, "pose", poseNameA id])
      (fs.poseFiles (poseNameA id)) with
  | error e => simp [hld] at h
  | ok pose =>
    simp only [hld] at h
    by_cases hfin : finiteMat pose = true
    · simp only [if_pos hfin, Option.some.injEq] at h
      subst h
      exact ⟨rfl, rfl, hfin, rfl⟩
    · simp [if_neg hfin] at h

theorem frameOfTokB_some {path scene tok : String}
    {entries : List (String × List (List PyFloat))}
    {intr? : Option (List (List PyFloat))} {f : Frame}
    (h : frameOfTokB path scene entries intr? tok = some f) :
    f.file_name_image = imgPathB path scene tok ∧ finiteMat f.pose = true ∧
      lookupLast entries tok = some f.pose ∧ intr? = some f.intrinsics := by
  unfold frameOfTokB at h
  cases hlk : lookupLast entries tok with
  | none => simp [hlk] at h
  | some pose =>
    simp only [hlk] at h
    by_cases hfin : finiteMat pose = true
    · simp only [if_pos hfin] at h
      cases hint : intr? with
      | none => simp [hint] at h
      | some K =>
        simp only [hint, Option.some.injEq] at h
        subst h
        exact ⟨rfl, hfin, rfl, rfl⟩
    · simp [if_neg hfin] at h

/-- **C1** (confirmed): in both variants, a frame whose pose has a
non-finite element never reaches the finished manifest — whenever a run
completes with a manifest (so processing continued to the final write),
every frame in its `frames` list has an entirely finite pose. -/
theorem C1_finite_pose_invariant (fs : SceneFiles) (scene path : String)
    (v : ℤ) (m : Manifest) (pr : List String) :
    (prepare_sample_scene fs scene path v = (.ok m, pr) →
      ∀ f ∈ m.frames, finiteMat f.pose = true) ∧
    (prepare_test_scene fs scene path v = (.ok m, pr) →
      ∀ f ∈ m.frames, finiteMat f.pose = true) := by
  constructor
  · intro h f hf
    rcases prepareA_ok_inv h with ⟨intr, names, ids, frames, _, _, _, hlp, hm⟩
    subst hm
    rw [loopA_ok_frames hlp] at hf
    rcases List.mem_filterMap.mp hf with ⟨id, _, hid⟩
    exact (frameOfIdA_some hid).2.2.1
  · intro h f hf
    rcases prepareB_ok_inv h with ⟨content, st, _, _, hm⟩
    subst hm
    rw [loopB_snd_char] at hf
    rcases List.mem_filterMap.mp hf with ⟨tok, _, htok⟩
    exact (frameOfTokB_some htok).2.1

/-- **C2** (confirmed): in variant B, when `pose.txt` has a last line and
the run completes, every frame record's `intrinsics` equals the intrinsics
parsed from that last line (its fields 1–9), not the frame's own line's
value. -/
theorem C2_last_line_intrinsics (fs : SceneFiles) (scene path : String)
    (v : ℤ) (content L : String) (m : Manifest) (pr : List String)
    (hc : fs.poseTxt = some content)
    (hL : (pyReadlines content).getLast? = some L)
    (h : prepare_test_scene fs scene path v = (.ok m, pr)) :
    ∃ ent, parseLineB L = .ok ent ∧
      ∀ f ∈ m.frames, f.intrinsics = ent.intr := by
  rcases prepareB_ok_inv h with ⟨content', st, hc', hp, hm⟩
  rw [hc] at hc'
  cases hc'
  have hne : pyReadlines content ≠ [] := by
    intro hnil
    rw [hnil] at hL
    cases hL
  rcases parseAllB_lastIntr hp hne with ⟨L', ent, hL', hent, hintr⟩
  rw [hL] at hL'
  cases hL'
  refine ⟨ent, hent, ?_⟩
  intro f hf
  subst hm
  rw [loopB_snd_char] at hf
  rcases List.mem_filterMap.mp hf with ⟨tok, _, htok⟩
  have h2 := (frameOfTokB_some htok).2.2.2
  rw [hintr] at h2
  exact (Option.some_inj.mp h2).symm

/-- **C3** (corrected): in variant A every emitted frame's image path is
`os.path.join(source_root, scene, 'color', '%08d.jpg' % id)` for an
identifier derived from the `color/` listing — the source-root-joined
path, not the scene-relative path the claim states. -/
theorem C3_image_path_amended (fs : SceneFiles) (scene path : String)
    (v : ℤ) (m : Manifest) (pr : List String) (names : List String)
    (ids : List ℤ)
    (hcn : fs.colorNames = some names)
    (hids : optMapM colorId names = some ids)
    (h : prepare_sample_scene fs scene path v = (.ok m, pr)) :
    ∀ f ∈ m.frames, ∃ id, id ∈ ids ∧
      f.file_name_image = pyJoin [path, scene, "color", pad8 id ++ ".jpg"] := by
  intro f hf
  rcases prepareA_ok_inv h with ⟨intr, names', ids', frames, _, hcn', hids', hlp, hm⟩
  rw [hcn] at hcn'
  cases hcn'
  rw [hids] at hids'
  cases hids'
  subst hm
  rw [loopA_ok_frames hlp] at hf
  rcases List.mem_filterMap.mp hf with ⟨id, hidmem, hid⟩
  exact ⟨id, mem_sortInts.mp hidmem, (frameOfIdA_some hid).2.1⟩

/-- **C4** (confirmed): in a completed variant-A run the manifest's frames
are ordered by ascending numeric identifier (derived from the `color/`
base names): their image paths form a subsequence of the identifier-sorted
path list.  In a completed variant-B run the frames follow `pose.txt` line
order: their image paths form a subsequence of the token list in line
order. -/
theorem C4_frame_ordering (fs : SceneFiles) (scene path : String) (v : ℤ)
    (m : Manifest) (pr : List String) :
    (prepare_sample_scene fs scene path v = (.ok m, pr) →
      ∀ names ids, fs.colorNames = some names →
        optMapM colorId names = some ids →
        (sortInts ids).Sorted (· ≤ ·) ∧
        List.Sublist (m.frames.map Frame.file_name_image)
          ((sortInts ids).map (imgPathA path scene))) ∧
    (prepare_test_scene fs scene path v = (.ok m, pr) →
      ∀ content st, fs.poseTxt = some content →
        parseAllB (pyReadlines content) = .ok st →
        List.Sublist (m.frames.map Frame.file_name_image)
          (st.frame_ids.map (imgPathB path scene))) := by
  constructor
  · intro h names ids hcn hids
    refine ⟨sorted_sortInts ids, ?_⟩
    rcases prepareA_ok_inv h with ⟨intr, names', ids', frames, _, hcn', hids', hlp, hm⟩
    rw [hcn] at hcn'
    cases hcn'
    rw [hids] at hids'
    cases hids'
    subst hm
    rw [loopA_ok_frames hlp]
    exact filterMap_map_sublist
      (fun id f hid => (frameOfIdA_some hid).2.1) (sortInts ids)
  · intro h content st hc hp
    rcases prepareB_ok_inv h with ⟨content', st', hc', hp', hm⟩
    rw [hc] at hc'
    cases hc'
    rw [hp] at hp'
    cases hp'
    subst hm
    rw [loopB_snd_char]
    exact filterMap_map_sublist
      (fun tok f htok => (frameOfTokB_some htok).1) st.frame_ids

/-- A run that raises: its result is an error, so the final `info.json`
write (which only happens on the `ok` path) is never reached. -/
def raisesNoWrite (r : Except PyErr Manifest × List String) : Prop :=
  ∃ e, r.1 = Except.error e

/-- **C5** (confirmed): each fatal condition — missing `intrinsics.txt`,
missing `color/`, a non-integer color name, a missing pose file for a
listed identifier (variant A); missing `pose.txt`, a malformed line
(variant B) — makes the builder raise, and an erroring run never reaches
the final manifest write. -/
theorem C5_fatal_errors_no_manifest (fs : SceneFiles) (scene path : String)
    (v : ℤ) :
    (fs.intrinsicsTxt = none → raisesNoWrite (prepare_sample_scene fs scene path v)) ∧
    (fs.colorNames = none → raisesNoWrite (prepare_sample_scene fs scene path v)) ∧
    (∀ names nm, fs.colorNames = some names → nm ∈ names → colorId nm = none →
      raisesNoWrite (prepare_sample_scene fs scene path v)) ∧
    (∀ names ids id, fs.colorNames = some names →
      optMapM colorId names = some ids → id ∈ ids →
      fs.poseFiles (poseNameA id) = none →
      raisesNoWrite (prepare_sample_scene fs scene path v)) ∧
    (fs.poseTxt = none → raisesNoWrite (prepare_test_scene fs scene path v)) ∧
    (∀ content line, fs.poseTxt = some content → line ∈ pyReadlines content →
      (∃ e, parseLineB line = .error e) →
      raisesNoWrite (prepare_test_scene fs scene path v)) := by
  refine ⟨?_, ?_, ?_, ?_, ?_, ?_⟩
  · intro h
    exact ⟨.missingInput (pyJoin [path, scene, "intrinsics.txt"]),
      by simp [prepare_sample_scene, loadtxt, h]⟩
  · intro h
    simp only [prepare_sample_scene, raisesNoWrite]
    cases loadtxt (pyJoin [path, scene, "intrinsics.txt"]) fs.intrinsicsTxt with
    | error e => exact ⟨e, rfl⟩
    | ok intr =>
      rw [h]
      exact ⟨.missingInput (pyJoin [path, scene, "color"]), rfl⟩
  · intro names nm hcn hmem hnone
    have hids := optMapM_eq_none_of_mem hmem hnone
    simp only [prepare_sample_scene, raisesNoWrite]
    cases loadtxt (pyJoin [path, scene, "intrinsics.txt"]) fs.intrinsicsTxt with
    | error e => exact ⟨e, rfl⟩
    | ok intr =>
      simp only [hcn, hids]
      exact ⟨.parseError "invalid literal for int", rfl⟩
  · intro names ids id hcn hids hmem hpf
    simp only [prepare_sample_scene, raisesNoWrite]
    cases loadtxt (pyJoin [path, scene, "intrinsics.txt"]) fs.intrinsicsTxt with
    | error e => exact ⟨e, rfl⟩
    | ok intr =>
      simp only [hcn, hids]
      rcases @loopA_error_of_missing fs scene path intr v (sortInts ids).length
        id (sortInts ids) 0
        (mem_sortInts.mpr hmem) hpf with ⟨e, he⟩
      simp only [he]
      exact ⟨e, rfl⟩
  · intro h
    exact ⟨.missingInput (pyJoin [path, scene, "pose.txt"]),
      by simp [prepare_test_scene, h]⟩
  · intro content line hc hmem he
    rcases parseAllB_error_of_mem hmem he with ⟨e, hpe⟩
    simp only [prepare_test_scene, raisesNoWrite, hc, hpe]
    exact ⟨e, rfl⟩

theorem pySlice_length {α : Type} (l : List α) (a b : Nat) :
    (pySlice l a b).length = min (b - a) (l.length - a) := by
  simp [pySlice]

theorem npReshape3x3_error {xs : List PyFloat} (h : xs.length ≠ 9) :
    ∃ e, npReshape3x3 xs = .error e :=
  ⟨.parseError "cannot reshape", by simp [npReshape3x3, h]⟩

theorem npReshape3x1_error {xs : List PyFloat} (h : xs.length ≠ 3) :
    ∃ e, npReshape3x1 xs = .error e :=
  ⟨.parseError "cannot reshape", by simp [npReshape3x1, h]⟩

theorem convertRow32_error_of_mem {w : String} {ws : List String}
    (hmem : w ∈ ws) (hw : pyParseFloat w = none) :
    ∃ e, convertRow32 ws = .error e :=
  exMapM_error_of_mem hmem ⟨.parseError w, by simp [hw]⟩

/-- **C6** (corrected): `prepare_test_scene` tokenizes a `pose.txt` line by
splitting on *single space characters* (`line.split(" ")`), not by general
whitespace.  With that reading the error behaviour is as claimed: any line
with fewer than 22 space-separated fields, or whose numeric fields 1–21
hold a token that does not parse as a float, makes the line parser raise a
fatal error — the line is never silently skipped. -/
theorem C6_malformed_line_error_amended (line : String)
    (h : (pySplitSpace line).length < 22 ∨
      ∃ w ∈ pySlice (pySplitSpace line) 1 22, pyParseFloat w = none) :
    ∃ e, parseLineB line = .error e := by
  simp only [parseLineB]
  rcases h with hlen | ⟨w, hwmem, hwnone⟩
  · cases h1 : convertRow32 (pySlice (pySplitSpace line) 1 10) with
    | error e => exact ⟨e, rfl⟩
    | ok kv =>
      dsimp only
      have hkv : kv.length = (pySlice (pySplitSpace line) 1 10).length :=
        exMapM_ok_length h1
      rw [pySlice_length] at hkv
      by_cases h10 : (pySplitSpace line).length < 10
      · rcases @npReshape3x3_error kv (by omega) with ⟨e, he⟩
        rw [he]
        exact ⟨e, rfl⟩
      · cases h2 : npReshape3x3 kv with
        | error e => exact ⟨e, rfl⟩
        | ok K =>
          dsimp only
          cases h3 : convertRow32 (pySlice (pySplitSpace line) 10 19) with
          | error e => exact ⟨e, rfl⟩
          | ok rv =>
            dsimp only
            have hrv : rv.length = (pySlice (pySplitSpace line) 10 19).length :=
              exMapM_ok_length h3
            rw [pySlice_length] at hrv
            by_cases h19 : (pySplitSpace line).length < 19
            · rcases @npReshape3x3_error rv (by omega) with ⟨e, he⟩
              rw [he]
              exact ⟨e, rfl⟩
            · cases h4 : npReshape3x3 rv with
              | error e => exact ⟨e, rfl⟩
              | ok R =>
                dsimp only
                cases h5 : convertRow32 (pySlice (pySplitSpace line) 19 22) with
                | error e => exact ⟨e, rfl⟩
                | ok tv =>
                  dsimp only
                  have htv : tv.length =
                      (pySlice (pySplitSpace line) 19 22).length :=
                    exMapM_ok_length h5
                  rw [pySlice_length] at htv
                  rcases @npReshape3x1_error tv (by omega) with ⟨e, he⟩
                  rw [he]
                  exact ⟨e, rfl⟩
  · have hsplit : pySlice (pySplitSpace line) 1 22 =
        pySlice (pySplitSpace line) 1 10 ++
          (pySlice (pySplitSpace line) 10 19 ++
            pySlice (pySplitSpace line) 19 22) := by
      simp only [pySlice]
      rw [show (22 - 1 : Nat) = 9 + (9 + 3) from rfl, List.take_add,
        List.take_add, List.drop_drop, List.drop_drop]
    rw [hsplit] at hwmem
    rcases List.mem_append.mp hwmem with hw1 | hw23
    · rcases convertRow32_error_of_mem hw1 hwnone with ⟨e, he⟩
      rw [he]
      exact ⟨e, rfl⟩
    · cases h1 : convertRow32 (pySlice (pySplitSpace line) 1 10) with
      | error e => exact ⟨e, rfl⟩
      | ok kv =>
        dsimp only
        cases h2 : npReshape3x3 kv with
        | error e => exact ⟨e, rfl⟩
        | ok K =>
          dsimp only
          rcases List.mem_append.mp hw23 with hw2 | hw3
          · rcases convertRow32_error_of_mem hw2 hwnone with ⟨e, he⟩
            rw [he]
            exact ⟨e, rfl⟩
          · cases h3 : convertRow32 (pySlice (pySplitSpace line) 10 19) with
            | error e => exact ⟨e, rfl⟩
            | ok rv =>
              dsimp only
              cases h4 : npReshape3x3 rv with
              | error e => exact ⟨e, rfl⟩
              | ok R =>
                dsimp only
                rcases convertRow32_error_of_mem hw3 hwnone with ⟨e, he⟩
                rw [he]
                exact ⟨e, rfl⟩

/-- **C7** (confirmed): on the spec's example line the variant-B parser
yields token `"f1"`, identity 3×3 intrinsics and the identity 4×4 pose
assembled as `[[R | t], [0,0,0,1]]`. -/
theorem C7_example_line_parsing :
    parseLineB "f1 1 0 0 0 1 0 0 0 1 1 0 0 0 1 0 0 0 1 0 0 0" =
      .ok { token := "f1",
            intr := [[.fin 1, .fin 0, .fin 0],
                     [.fin 0, .fin 1, .fin 0],
                     [.fin 0, .fin 0, .fin 1]],
            pose := [[.fin 1, .fin 0, .fin 0, .fin 0],
                     [.fin 0, .fin 1, .fin 0, .fin 0],
                     [.fin 0, .fin 0, .fin 1, .fin 0],
                     [.fin 0, .fin 0, .fin 0, .fin 1]] } := by
  decide

theorem loopA_ok_of_loads {fs : SceneFiles} {scene path : String}
    {intr : List (List PyFloat)} {v : ℤ} {n : Nat} :
    ∀ {l : List ℤ} (i : Nat),
      (∀ id ∈ l, ∃ pose, loadtxt (pyJoin [path, scene, "pose", poseNameA id])
        (fs.poseFiles (poseNameA id)) = .ok pose) →
      ∃ frames, (loopA fs scene path intr v n l i).2 = .ok frames := by
  intro l
  induction l with
  | nil => intro i _; exact ⟨[], rfl⟩
  | cons id rest ih =>
    intro i hall
    rcases hall id (by simp) with ⟨pose, hld⟩
    simp only [loopA, hld]
    rcases ih (i + 1) (fun b hb => hall b (by simp [hb])) with ⟨frames, hrec⟩
    rw [hrec]
    by_cases hf : finiteMat pose = true
    · refine ⟨Frame.mk (imgPathA path scene id) intr pose :: frames, ?_⟩
      simp [hf]
    · refine ⟨frames, ?_⟩
      simp [hf]

/-- **C8** (confirmed): when every listed frame has a loadable but
non-finite pose — including the vacuous case of no frames at all — each
variant completes without error and yields the manifest with `dataset`,
`path` and `scene` populated and an empty `frames` list. -/
theorem C8_all_invalid_empty_manifest (fs : SceneFiles) (scene path : String)
    (v : ℤ) :
    (∀ K names ids,
      loadtxt (pyJoin [path, scene, "intrinsics.txt"]) fs.intrinsicsTxt = .ok K →
      fs.colorNames = some names →
      optMapM colorId names = some ids →
      (∀ id ∈ ids, ∃ pose,
        loadtxt (pyJoin [path, scene, "pose", poseNameA id])
          (fs.poseFiles (poseNameA id)) = .ok pose ∧ finiteMat pose = false) →
      (prepare_sample_scene fs scene path v).1 =
        .ok { dataset := "sample", path := path, scene := scene, frames := [] }) ∧
    (∀ content st,
      fs.poseTxt = some content →
      parseAllB (pyReadlines content) = .ok st →
      (∀ e ∈ st.entries, finiteMat e.2 = false) →
      (prepare_test_scene fs scene path v).1 =
        .ok { dataset := "sample", path := path, scene := scene, frames := [] }) := by
  constructor
  · intro K names ids hK hcn hids hall
    rcases @loopA_ok_of_loads fs scene path K v (sortInts ids).length
        (sortInts ids) 0
        (fun id hid => ⟨(hall id (mem_sortInts.mp hid)).choose,
          (hall id (mem_sortInts.mp hid)).choose_spec.1⟩)
      with ⟨frames, hlp⟩
    have hnil : frames = [] := by
      rw [loopA_ok_frames hlp]
      apply List.filterMap_eq_nil.mpr
      intro id hid
      rcases hall id (mem_sortInts.mp hid) with ⟨pose, hld, hfin⟩
      unfold frameOfIdA
      rw [hld]
      simp [hfin]
    simp only [prepare_sample_scene, hK, hcn, hids, hlp, hnil]
  · intro content st hc hp hfin
    have hloop : (loopB scene path st.entries st.lastIntr v
        st.frame_ids.length st.frame_ids 0).2 = [] := by
      rw [loopB_snd_char]
      apply List.filterMap_eq_nil.mpr
      intro tok htok
      rcases parseAllB_lookup_some hp htok with ⟨P, hP⟩
      have hPfin := hfin (tok, P) (lookupLast_mem hP)
      unfold frameOfTokB
      rw [hP]
      simp [hPfin]
    simp only [prepare_test_scene, hc, hp, hloop]

/-- **C9** (confirmed): the verbosity argument never influences the
manifest — for any two verbosity values the written `info.json` content
(or the raised error) is identical in both variants — and it only controls
the progress text: verbosity 0 prints nothing and verbosity 1 prints
exactly the per-scene message. -/
theorem C9_verbosity_noninterference (fs : SceneFiles) (scene path : String)
    (v1 v2 : ℤ) :
    (prepare_sample_scene fs scene path v1).1 =
      (prepare_sample_scene fs scene path v2).1 ∧
    (prepare_test_scene fs scene path v1).1 =
      (prepare_test_scene fs scene path v2).1 ∧
    (prepare_sample_scene fs scene path 0).2 = [] ∧
    (prepare_test_scene fs scene path 0).2 = [] ∧
    (prepare_sample_scene fs scene path 1).2 = [sceneMsg scene] ∧
    (prepare_test_scene fs scene path 1).2 = [sceneMsg scene] := by
  refine ⟨?_, ?_, ?_, ?_, ?_, ?_⟩
  · simp only [prepare_sample_scene]
    cases loadtxt (pyJoin [path, scene, "intrinsics.txt"]) fs.intrinsicsTxt with
    | error e => rfl
    | ok intr =>
      dsimp only
      cases fs.colorNames with
      | none => rfl
      | some names =>
        dsimp only
        cases optMapM colorId names with
        | none => rfl
        | some ids =>
          dsimp only
          rw [loopA_snd_verbose v1 v2 (sortInts ids).length (sortInts ids).length
            (sortInts ids) 0 0]
          cases (loopA fs scene path intr v2 (sortInts ids).length
              (sortInts ids) 0).2 with
          | error e => rfl
          | ok frames => rfl
  · simp only [prepare_test_scene]
    cases fs.poseTxt with
    | none => rfl
    | some content =>
      dsimp only
      cases parseAllB (pyReadlines content) with
      | error e => rfl
      | ok st =>
        dsimp only
        rw [loopB_snd_char, loopB_snd_char]
  · have h0 : ¬((0 : ℤ) > 0) := by norm_num
    simp only [prepare_sample_scene, if_neg h0]
    cases loadtxt (pyJoin [path, scene, "intrinsics.txt"]) fs.intrinsicsTxt with
    | error e => rfl
    | ok intr =>
      dsimp only
      cases fs.colorNames with
      | none => rfl
      | some names =>
        dsimp only
        cases optMapM colorId names with
        | none => rfl
        | some ids =>
          dsimp only
          rw [loopA_prints_low (by norm_num) (sortInts ids) 0]
          cases (loopA fs scene path intr 0 (sortInts ids).length
              (sortInts ids) 0).2 with
          | error e => rfl
          | ok frames => rfl
  · have h0 : ¬((0 : ℤ) > 0) := by norm_num
    simp only [prepare_test_scene, if_neg h0]
    cases fs.poseTxt with
    | none => rfl
    | some content =>
      dsimp only
      cases parseAllB (pyReadlines content) with
      | error e => rfl
      | ok st =>
        dsimp only
        rw [loopB_prints_low (by norm_num) st.frame_ids 0]
        rfl
  · have h1 : (1 : ℤ) > 0 := by norm_num
    simp only [prepare_sample_scene, if_pos h1]
    cases loadtxt (pyJoin [path, scene, "intrinsics.txt"]) fs.intrinsicsTxt with
    | error e => rfl
    | ok intr =>
      dsimp only
      cases fs.colorNames with
      | none => rfl
      | some names =>
        dsimp only
        cases optMapM colorId names with
        | none => rfl
        | some ids =>
          dsimp only
          rw [loopA_prints_low (by norm_num) (sortInts ids) 0]
          cases (loopA fs scene path intr 1 (sortInts ids).length
              (sortInts ids) 0).2 with
          | error e => rfl
          | ok frames => rfl
  · have h1 : (1 : ℤ) > 0 := by norm_num
    simp only [prepare_test_scene, if_pos h1]
    cases fs.poseTxt with
    | none => rfl
    | some content =>
      dsimp only
      cases parseAllB (pyReadlines content) with
      | error e => rfl
      | ok st =>
        dsimp only
        rw [loopB_prints_low (by norm_num) st.frame_ids 0]
        simp

/-- **C10** (confirmed): in variant B duplicate frame tokens raise no
error; when every recorded binding's pose is finite the run succeeds and
emits exactly one frame per `pose.txt` line (so per occurrence of a
duplicated token), in line order, and every record's pose is the one bound
by the *last* line carrying that token (the overwritten dict entry). -/
theorem C10_duplicate_tokens_last_pose (fs : SceneFiles) (scene path : String)
    (v : ℤ) (content : String) (st : ParseStateB)
    (hc : fs.poseTxt = some content)
    (hp : parseAllB (pyReadlines content) = .ok st)
    (hfin : ∀ e ∈ st.entries, finiteMat e.2 = true) :
    ∃ m, (prepare_test_scene fs scene path v).1 = .ok m ∧
      m.frames.length = st.frame_ids.length ∧
      ∀ K, st.lastIntr = some K →
        m.frames = st.frame_ids.map (fun tok =>
          { file_name_image := imgPathB path scene tok, intrinsics := K,
            pose := (lookupLast st.entries tok).getD [] }) := by
  have hpt : ∀ K, st.lastIntr = some K → ∀ tok ∈ st.frame_ids,
      frameOfTokB path scene st.entries (some K) tok =
        some (Frame.mk (imgPathB path scene tok) K
          ((lookupLast st.entries tok).getD [])) := by
    intro K hK tok htok
    rcases parseAllB_lookup_some hp htok with ⟨P, hP⟩
    have hfinP := hfin (tok, P) (lookupLast_mem hP)
    unfold frameOfTokB
    rw [hP]
    simp [hfinP, hP]
  refine ⟨Manifest.mk "sample" path scene
      (loopB scene path st.entries st.lastIntr v
        st.frame_ids.length st.frame_ids 0).2, ?_, ?_, ?_⟩
  · simp only [prepare_test_scene, hc, hp]
  · show (loopB scene path st.entries st.lastIntr v
        st.frame_ids.length st.frame_ids 0).2.length = st.frame_ids.length
    rw [loopB_snd_char]
    cases hli : st.lastIntr with
    | none =>
      rw [parseAllB_lastIntr_none hp hli]
      rfl
    | some K =>
      rw [@filterMap_eq_map_of_forall String Frame
        (frameOfTokB path scene st.entries (some K))
        (fun tok => Frame.mk (imgPathB path scene tok) K
          ((lookupLast st.entries tok).getD []))
        st.frame_ids (hpt K hli)]
      simp
  · intro K hK
    show (loopB scene path st.entries st.lastIntr v
        st.frame_ids.length st.frame_ids 0).2 = _
    rw [loopB_snd_char, hK, @filterMap_eq_map_of_forall String Frame
      (frameOfTokB path scene st.entries (some K))
      (fun tok => Frame.mk (imgPathB path scene tok) K
        ((lookupLast st.entries tok).getD []))
      st.frame_ids (hpt K hK)]

set_option maxRecDepth 1000000

/-- Identity 3×3 intrinsics, as parsed values. -/
def idK3 : List (List PyFloat) :=
  [[.fin 1, .fin 0, .fin 0], [.fin 0, .fin 1, .fin 0], [.fin 0, .fin 0, .fin 1]]

/-- The intrinsics of the last `wPoseTxt` line (focal 2). -/
def twoK3 : List (List PyFloat) :=
  [[.fin 2, .fin 0, .fin 0], [.fin 0, .fin 2, .fin 0], [.fin 0, .fin 0, .fin 1]]

/-- Identity 4×4 pose. -/
def idP4 : List (List PyFloat) :=
  [[.fin 1, .fin 0, .fin 0, .fin 0], [.fin 0, .fin 1, .fin 0, .fin 0],
   [.fin 0, .fin 0, .fin 1, .fin 0], [.fin 0, .fin 0, .fin 0, .fin 1]]

/-- Identity rotation with translation `(5, 5, 5)`. -/
def p5P4 : List (List PyFloat) :=
  [[.fin 1, .fin 0, .fin 0, .fin 5], [.fin 0, .fin 1, .fin 0, .fin 5],
   [.fin 0, .fin 0, .fin 1, .fin 5], [.fin 0, .fin 0, .fin 0, .fin 1]]

/-- Pose with a `nan` in the translation column. -/
def nanP4 : List (List PyFloat) :=
  [[.fin 1, .fin 0, .fin 0, .nan], [.fin 0, .fin 1, .fin 0, .fin 0],
   [.fin 0, .fin 0, .fin 1, .fin 0], [.fin 0, .fin 0, .fin 0, .fin 1]]

/-- Pose with a `nan` in the bottom-right corner (a variant-A pose file). -/
def nanP4c : List (List PyFloat) :=
  [[.fin 1, .fin 0, .fin 0, .fin 0], [.fin 0, .fin 1, .fin 0, .fin 0],
   [.fin 0, .fin 0, .fin 1, .fin 0], [.fin 0, .fin 0, .fin 0, .nan]]

/-- A three-line `pose.txt`: tokens `a`, `b` (non-finite pose), `a` again
with a different pose and different intrinsics. -/
def wPoseTxt : String :=
  "a 1 0 0 0 1 0 0 0 1 1 0 0 0 1 0 0 0 1 0 0 0\nb 5 0 0 0 5 0 0 0 1 1 0 0 0 1 0 0 0 1 nan 0 0\na 2 0 0 0 2 0 0 0 1 1 0 0 0 1 0 0 0 1 5 5 5"

/-- A scene offering both input layouts: two color frames of which frame 5
has a `nan` pose, and the `pose.txt` above. -/
def wFs : SceneFiles :=
  { intrinsicsTxt := some "1 0 0\n0 1 0\n0 0 1"
    colorNames := some ["5.jpg", "1.jpg"]
    poseFiles := fun n =>
      if n = "00000001.txt" then
        some "1 0 0 0\n0 1 0 0\n0 0 1 0\n0 0 0 1"
      else if n = "00000005.txt" then
        some "nan 0 0 0\n0 1 0 0\n0 0 1 0\n0 0 0 1"
      else none
    poseTxt := some wPoseTxt }

/-- The manifest variant A writes for `wFs`: frame 5 is dropped. -/
def wManA : Manifest :=
  Manifest.mk "sample" "/data" "s"
    [Frame.mk "/data/s/color/00000001.jpg" idK3 idP4]

/-- The manifest variant B writes for `wFs`: token `b` is dropped, both
`a` occurrences carry the last `a` pose and the last line's intrinsics. -/
def wManB : Manifest :=
  Manifest.mk "sample" "/data" "s"
    [Frame.mk "/data/s/color/a" twoK3 p5P4, Frame.mk "/data/s/color/a" twoK3 p5P4]

/-- The parse state of `wPoseTxt`. -/
def wStB : ParseStateB :=
  ParseStateB.mk [("a", idP4), ("b", nanP4), ("a", p5P4)] ["a", "b", "a"]
    (some twoK3)

/-- Witness for C1 at a scene holding both a finite and a `nan` pose in
each variant: the completed manifests carry finite poses only. -/
theorem C1_witness :
    (∀ f ∈ wManA.frames, finiteMat f.pose = true) ∧
    (∀ f ∈ wManB.frames, finiteMat f.pose = true) :=
  ⟨(C1_finite_pose_invariant wFs "s" "/data" 0 wManA []).1 (by decide),
   (C1_finite_pose_invariant wFs "s" "/data" 0 wManB []).2 (by decide)⟩

/-- Witness for C2: the last `wPoseTxt` line has focal-2 intrinsics and
every frame of the finished manifest carries them. -/
theorem C2_witness :
    ∃ ent, parseLineB "a 2 0 0 0 2 0 0 0 1 1 0 0 0 1 0 0 0 1 5 5 5" =
        .ok ent ∧
      ∀ f ∈ wManB.frames, f.intrinsics = ent.intr :=
  C2_last_line_intrinsics wFs "s" "/data" 0 wPoseTxt
    "a 2 0 0 0 2 0 0 0 1 1 0 0 0 1 0 0 0 1 5 5 5" wManB [] rfl (by decide)
    (by decide)

/-- Counterexample to C3 as stated: with `source_root = "/data"` the
emitted finite-pose frame's image path is the source-root-joined
`/data/s/color/00000001.jpg`, not the scene-relative
`s/color/00000001.jpg`. -/
theorem C3_counterexample :
    prepare_sample_scene wFs "s" "/data" 0 = (.ok wManA, []) ∧
    wManA.frames.map Frame.file_name_image = ["/data/s/color/00000001.jpg"] ∧
    (∀ f ∈ wManA.frames, finiteMat f.pose = true) ∧
    "/data/s/color/00000001.jpg" ≠ "s/color/00000001.jpg" :=
  ⟨by decide, by decide, by decide, by decide⟩

/-- Witness for the amended C3 at `wFs`, instantiated at its single
emitted frame. -/
theorem C3_witness :
    ∃ id, id ∈ [(5 : ℤ), 1] ∧
      (Frame.mk "/data/s/color/00000001.jpg" idK3 idP4).file_name_image =
        pyJoin ["/data", "s", "color", pad8 id ++ ".jpg"] :=
  C3_image_path_amended wFs "s" "/data" 0 wManA [] ["5.jpg", "1.jpg"] [5, 1]
    rfl (by decide) (by decide)
    (Frame.mk "/data/s/color/00000001.jpg" idK3 idP4) (by decide)

/-- Witness for C4 at `wFs`: ids `[5, 1]` are processed in sorted order in
variant A, and variant-B frames follow the token line order `a, b, a`. -/
theorem C4_witness :
    ((sortInts [5, 1]).Sorted (· ≤ ·) ∧
      List.Sublist (wManA.frames.map Frame.file_name_image)
        ((sortInts [5, 1]).map (imgPathA "/data" "s"))) ∧
    List.Sublist (wManB.frames.map Frame.file_name_image)
      (wStB.frame_ids.map (imgPathB "/data" "s")) :=
  ⟨(C4_frame_ordering wFs "s" "/data" 0 wManA []).1 (by decide)
      ["5.jpg", "1.jpg"] [5, 1] rfl (by decide),
   (C4_frame_ordering wFs "s" "/data" 0 wManB []).2 (by decide) wPoseTxt wStB
      rfl (by decide)⟩

/-- A scene missing `intrinsics.txt` and `pose.txt`, with a non-integer
color file name. -/
def fs5a : SceneFiles := ⟨none, some ["x.jpg"], fun _ => none, none⟩

/-- A scene with good intrinsics and listing but no pose files, and a
malformed `pose.txt`. -/
def fs5b : SceneFiles :=
  ⟨some "1 0 0\n0 1 0\n0 0 1", some ["1.jpg"], fun _ => none, some "garbage"⟩

/-- A scene whose `color/` directory is missing. -/
def fs5c : SceneFiles := ⟨some "1", none, fun _ => none, none⟩

/-- Witness for C5: each fatal condition raises at a concrete scene. -/
theorem C5_witness :
    raisesNoWrite (prepare_sample_scene fs5a "s" "p" 0) ∧
    raisesNoWrite (prepare_sample_scene fs5c "s" "p" 0) ∧
    raisesNoWrite (prepare_sample_scene fs5a "s" "p" 1) ∧
    raisesNoWrite (prepare_sample_scene fs5b "s" "p" 0) ∧
    raisesNoWrite (prepare_test_scene fs5a "s" "p" 0) ∧
    raisesNoWrite (prepare_test_scene fs5b "s" "p" 0) :=
  ⟨(C5_fatal_errors_no_manifest fs5a "s" "p" 0).1 rfl,
   (C5_fatal_errors_no_manifest fs5c "s" "p" 0).2.1 rfl,
   (C5_fatal_errors_no_manifest fs5a "s" "p" 1).2.2.1 ["x.jpg"] "x.jpg" rfl
      (by decide) (by decide),
   (C5_fatal_errors_no_manifest fs5b "s" "p" 0).2.2.2.1 ["1.jpg"] [1] 1 rfl
      (by decide) (by decide) rfl,
   (C5_fatal_errors_no_manifest fs5a "s" "p" 0).2.2.2.2.1 rfl,
   (C5_fatal_errors_no_manifest fs5b "s" "p" 0).2.2.2.2.2 "garbage" "garbage"
      rfl (by decide) ⟨.parseError "cannot reshape", by decide⟩⟩

/-- A line whose fields are separated so that it has only 21 whitespace
tokens (a leading space), yet splits into 22 fields on single spaces. -/
def c6line : String := " 1 0 0 0 1 0 0 0 1 1 0 0 0 1 0 0 0 1 0 0 0"

/-- A scene whose `pose.txt` is exactly `c6line`. -/
def fs6 : SceneFiles := ⟨none, none, fun _ => none, some c6line⟩

/-- The manifest `prepare_test_scene` emits for `fs6` — one frame with the
empty token. -/
def m6 : Manifest :=
  Manifest.mk "sample" "p" "s" [Frame.mk "p/s/color/" idK3 idP4]

/-- Counterexample to C6 as stated: `c6line` has only 21 *whitespace*
tokens, yet the builder raises no error — it parses the line (empty frame
token) and happily emits a manifest, because the code splits on single
spaces rather than on whitespace. -/
theorem C6_counterexample :
    (pySplitWs c6line).length = 21 ∧
    parseLineB c6line = .ok (PoseEntry.mk "" idK3 idP4) ∧
    (prepare_test_scene fs6 "s" "p" 0).1 = .ok m6 :=
  ⟨by decide, by decide, by decide⟩

/-- Witness for the amended C6 at a two-field line. -/
theorem C6_witness : ∃ e, parseLineB "x y" = .error e :=
  C6_malformed_line_error_amended "x y" (Or.inl (by decide))

/-- A scene in which every pose (in both layouts) has a `nan`. -/
def fs8 : SceneFiles :=
  { intrinsicsTxt := some "1 0 0\n0 1 0\n0 0 1"
    colorNames := some ["7.jpg"]
    poseFiles := fun n =>
      if n = "00000007.txt" then
        some "1 0 0 0\n0 1 0 0\n0 0 1 0\n0 0 0 nan"
      else none
    poseTxt := some "t 1 0 0 0 1 0 0 0 1 1 0 0 0 1 0 0 0 1 nan 0 0" }

/-- The parse state of the `fs8` pose table. -/
def st8 : ParseStateB := ParseStateB.mk [("t", nanP4)] ["t"] (some idK3)

/-- Witness for C8: a scene whose only frames have non-finite poses yields
empty-framed manifests in both variants, without error. -/
theorem C8_witness :
    (prepare_sample_scene fs8 "s" "p" 0).1 =
      .ok (Manifest.mk "sample" "p" "s" []) ∧
    (prepare_test_scene fs8 "s" "p" 0).1 =
      .ok (Manifest.mk "sample" "p" "s" []) :=
  ⟨(C8_all_invalid_empty_manifest fs8 "s" "p" 0).1 idK3 ["7.jpg"] [7]
      (by decide) rfl (by decide)
      (fun id hid => by
        have h7 : id = 7 := by simpa using hid
        subst h7
        exact ⟨nanP4c, by decide, by decide⟩),
   (C8_all_invalid_empty_manifest fs8 "s" "p" 0).2
      "t 1 0 0 0 1 0 0 0 1 1 0 0 0 1 0 0 0 1 nan 0 0" st8 rfl (by decide)
      (by decide)⟩

/-- A `pose.txt` with the token `a` on two lines bearing different finite
poses. -/
def fs10 : SceneFiles :=
  ⟨none, none, fun _ => none,
   some "a 1 0 0 0 1 0 0 0 1 1 0 0 0 1 0 0 0 1 0 0 0\na 2 0 0 0 2 0 0 0 1 1 0 0 0 1 0 0 0 1 5 5 5"⟩

/-- The parse state of the `fs10` pose table: both bindings retained in
line order, the token recorded twice. -/
def st10 : ParseStateB :=
  ParseStateB.mk [("a", idP4), ("a", p5P4)] ["a", "a"] (some twoK3)

/-- Witness for C10 at `fs10`: two frames are emitted for the duplicated
token, each carrying the second line's pose. -/
theorem C10_witness :
    ∃ m, (prepare_test_scene fs10 "s" "p" 0).1 = .ok m ∧
      m.frames.length = st10.frame_ids.length ∧
      ∀ K, st10.lastIntr = some K →
        m.frames = st10.frame_ids.map (fun tok =>
          { file_name_image := imgPathB "p" "s" tok, intrinsics := K,
            pose := (lookupLast st10.entries tok).getD [] }) :=
  C10_duplicate_tokens_last_pose fs10 "s" "p" 0
    "a 1 0 0 0 1 0 0 0 1 1 0 0 0 1 0 0 0 1 0 0 0\na 2 0 0 0 2 0 0 0 1 1 0 0 0 1 0 0 0 1 5 5 5"
    st10 rfl (by decide) (by decide)
